import Mathlib

/-!
Shallow embedding of gitscovery (src/src/components/app/app.tsx).

The program is a single React component.  On mount it runs `fetchRepos`:
it reads a localStorage cache (`gitscovery_repos` / `gitscovery_timestamp`),
adopts the cached list when the timestamp is within a 30-minute TTL, and
otherwise performs one GitHub search request, filters the returned items to
those with a positive `open_issues_count`, keeps their `html_url`s, and
persists list and timestamp back to the cache.  HTTP 403/429 with a cache
entry present falls back to the (possibly stale) cached list.  A button is
disabled while loading or while the list is empty; clicking it picks a
random entry and opens it in a new tab.

Modelling choices:
* localStorage values are modelled post-parse: the cached list as
  `Option (List String)` (the code writes `JSON.stringify` of a string
  array), the timestamp as `Option (Option Int)` where `some none` stands
  for a stored string on which `parseInt` yields NaN (and likewise for the
  empty string, which is additionally falsy; both make `isCacheValid`
  false, as in JS).
* the fetch response is an inductive: network error, or an HTTP status
  plus an optional parsed `items` array (`none` covers a non-JSON body and
  a body without a usable `items` array, both of which throw inside the
  `try` block).
* times are `Int` milliseconds; `Date.now()` is called twice in the code
  (once for the validity check, once when persisting), so the model takes
  two parameters `now` and `saveNow`.
* the date arithmetic of `getRecentDate` is modelled on calendar triples
  (year, month 1..12, day), assuming a UTC environment (the code mixes
  local-time `setMonth` with UTC `toISOString`) and years ≥ 1.
-/

namespace Gitscovery

/-- An element of the GitHub search response's `items` array, restricted to
the two fields the code reads. -/
structure Item where
  open_issues_count : Int
  html_url : String
deriving Repr, DecidableEq

/-- The persistent key-value store: key `gitscovery_repos` (a JSON-encoded
list of URLs, or absent) and key `gitscovery_timestamp` (absent, present but
not parseable as a number, or a parsed millisecond epoch). -/
structure Store where
  cached : Option (List String)
  timestamp : Option (Option Int)
deriving Repr, DecidableEq

/-- Result of the single `fetch` call: a network failure, or an HTTP status
together with the optional parsed `items` list of the body. -/
inductive Resp where
  | netError : Resp
  | http : Nat → Option (List Item) → Resp
deriving Repr, DecidableEq

/-- `CACHE_DURATION = 1000 * 60 * 30` milliseconds. -/
def CACHE_DURATION : Int := 1000 * 60 * 30

/-- `res.ok`: status in the 2xx range. -/
def isOk (status : Nat) : Bool := 200 ≤ status && status < 300

/-- Line 94-95: `timestamp && Date.now() - parseInt(timestamp) < CACHE_DURATION`.
An absent key and an unparseable (NaN) or empty stored string are both not
valid; otherwise the age comparison decides. -/
def isCacheValid (now : Int) (store : Store) : Bool :=
  match store.timestamp with
  | none => false
  | some none => false
  | some (some t) => decide (now - t < CACHE_DURATION)

/-- Lines 141-145: keep the items with `open_issues_count > 0`, in order,
and take their `html_url`s. -/
def validUrls (items : List Item) : List String :=
  (items.filter fun item => decide (0 < item.open_issues_count)).map
    fun item => item.html_url

/-- Observable outcome of one run of `fetchRepos`: the repos state after the
run, the store after the run, whether a network request was issued, the
loading flag after the run, whether `console.error` (catch) or
`console.warn` (rate-limit fallback) fired, and whether an exception escaped
to the caller. -/
structure Outcome where
  repos : List String
  store : Store
  networkCalled : Bool
  loadingAfter : Bool
  errorLogged : Bool
  warnLogged : Bool
  thrownToCaller : Bool
deriving Repr, DecidableEq

/-- Lines 102-156: the network path of `fetchRepos` (taken when the cache is
absent or invalid).  Every branch has `networkCalled = true` and, by the
`finally`, `loadingAfter = false`; every throw is caught by the enclosing
`catch`, which logs the error and leaves repos and store untouched. -/
def networkStep (saveNow : Int) (oldRepos : List String) (store : Store)
    (resp : Resp) : Outcome :=
  match resp with
  | Resp.netError => ⟨oldRepos, store, true, false, true, false, false⟩
  | Resp.http status body =>
    if isOk status then
      match body with
      | some items =>
        ⟨validUrls items, ⟨some (validUrls items), some (some saveNow)⟩,
          true, false, false, false, false⟩
      | none => ⟨oldRepos, store, true, false, true, false, false⟩
    else if (status == 403 || status == 429) && store.cached.isSome then
      match store.cached with
      | some cachedList => ⟨cachedList, store, true, false, false, true, false⟩
      | none => ⟨oldRepos, store, true, false, true, false, false⟩
    else
      ⟨oldRepos, store, true, false, true, false, false⟩

/-- Lines 88-157: one run of `fetchRepos`.  If the cached list is present
and the timestamp is within TTL, adopt the cached list and return before any
network activity (the loading flag is never raised); otherwise take the
network path. -/
def fetchRepos (now saveNow : Int) (oldRepos : List String) (store : Store)
    (resp : Resp) : Outcome :=
  match store.cached with
  | some cachedList =>
    if isCacheValid now store then
      ⟨cachedList, store, false, false, false, false, false⟩
    else networkStep saveNow oldRepos store resp
  | none => networkStep saveNow oldRepos store resp

/-- Line 172: `disabled={isLoading || repos.length === 0}`. -/
def buttonDisabled (isLoading : Bool) (repos : List String) : Bool :=
  isLoading || repos.length == 0

/-- Modelled from the spec: the helper `pick` (imported from
`@/helpers/random`, a file not present under `src/`).  Section 4.2 describes
it as selecting "one entry uniformly at random" and section 9 as "a
random-selection function (uniform pick over a sequence)".  The ambient
randomness is modelled as a natural number `r` reduced modulo the sequence
length; an empty sequence yields no selection. -/
def pick {α : Type} (l : List α) (r : Nat) : Option α :=
  l.get? (r % l.length)

/-- Lines 162-166: the click handler picks a random entry of `repos`; the
returned option is the repository URL the host is asked to open in a new
browsing context (`none` when the list is empty and `pick` yields no URL). -/
def handleClick (repos : List String) (r : Nat) : Option String :=
  pick repos r

/-- A click dispatched on the control: a disabled button element does not
fire its click handler (host DOM semantics), so activation runs
`handleClick` only when `buttonDisabled` is false. -/
def controlActivate (isLoading : Bool) (repos : List String) (r : Nat) :
    Option String :=
  if buttonDisabled isLoading repos then none else handleClick repos r

/-- The component's state visible to the button: the loading flag and the
current candidate list. -/
structure ButtonState where
  isLoading : Bool
  repos : List String

/-- States the button can be observed in over the component lifecycle:
freshly mounted (empty list, not loading), during the single mount-time
fetch (empty list, loading), and after `fetchRepos` settles (its resulting
list, not loading; both state updates land in the same synchronous tail of
the async function). -/
inductive Reachable : ButtonState → Prop where
  | mount : Reachable ⟨false, []⟩
  | fetching : Reachable ⟨true, []⟩
  | settled : ∀ (now saveNow : Int) (store : Store) (resp : Resp),
      Reachable ⟨false, (fetchRepos now saveNow [] store resp).repos⟩

/-- Line 108: the fixed candidate set passed to `pick` for `minStars`. -/
def minStarsOptions : List Nat := [500, 1000, 2000, 5000]

/-- Line 109: `maxStars = minStars + 10_000`. -/
def maxStarsOf (minStars : Nat) : Nat := minStars + 10000

/-- Gregorian leap year. -/
def isLeapYear (y : Nat) : Bool :=
  (y % 4 == 0 && y % 100 != 0) || y % 400 == 0

/-- Number of days of month `m` (1..12) in year `y`. -/
def daysInMonth (y m : Nat) : Nat :=
  if m == 2 then (if isLeapYear y then 29 else 28)
  else if m == 4 || m == 6 || m == 9 || m == 11 then 30
  else 31

/-- `date.setMonth(date.getMonth() - 6)`, month/year part: six calendar
months earlier, borrowing from the year as JS Date normalization does.
Returns (year, month 1..12). -/
def monthShiftBack6 (y m : Nat) : Nat × Nat :=
  let total := y * 12 + (m - 1) - 6
  (total / 12, total % 12 + 1)

/-- Lines 9-14, date part of `getRecentDate(6)`: the month is shifted back
six months keeping the day-of-month, and JS Date normalization rolls a
day-of-month overflow into the following month (e.g. Dec 31 becomes
"Jun 31" which normalizes to Jul 1). -/
def setMonthMinus6 (y m d : Nat) : Nat × Nat × Nat :=
  let p := monthShiftBack6 y m
  let dim := daysInMonth p.1 p.2
  if d ≤ dim then (p.1, p.2, d)
  else if p.2 == 12 then (p.1 + 1, 1, d - dim)
  else (p.1, p.2 + 1, d - dim)

/-- Two-digit zero padding, as in the fields of `toISOString`. -/
def pad2 (n : Nat) : String :=
  if n < 10 then "0" ++ toString n else toString n

/-- Four-digit zero padding, as in the year field of `toISOString`. -/
def pad4 (n : Nat) : String :=
  if n < 10 then "000" ++ toString n
  else if n < 100 then "00" ++ toString n
  else if n < 1000 then "0" ++ toString n
  else toString n

/-- The date part of `toISOString()`: `YYYY-MM-DD`. -/
def formatYMD (y m d : Nat) : String :=
  pad4 y ++ "-" ++ pad2 m ++ "-" ++ pad2 d

/-- Lines 9-14: `getRecentDate(6)` as a function of the current calendar
date: shift the month back by six with JS normalization, format as
`YYYY-MM-DD`. -/
def getRecentDate (y m d : Nat) : String :=
  let t := setMonthMinus6 y m d
  formatYMD t.1 t.2.1 t.2.2

/-- The spec's words, for comparison with `getRecentDate`: "the recency
cutoff date is always exactly 6 months before the call date".  Exactly six
calendar months before a date, under the standard calendar-arithmetic
convention (ISO 8601 duration subtraction, java.time, dateutil): the month
is shifted back six and the day-of-month is clamped to the length of the
target month (Dec 31 minus six months is Jun 30). -/
def exactSixMonthsBefore (y m d : Nat) : Nat × Nat × Nat :=
  let p := monthShiftBack6 y m
  (p.1, p.2, min d (daysInMonth p.1 p.2))

/-! Helper lemmas shared by the claim theorems. -/

theorem CACHE_DURATION_eq : CACHE_DURATION = 1800000 := by decide

theorem networkStep_networkCalled (saveNow : Int) (oldRepos : List String)
    (store : Store) (resp : Resp) :
    (networkStep saveNow oldRepos store resp).networkCalled = true := by
  obtain ⟨c, ts⟩ := store
  cases resp with
  | netError => rfl
  | http status body =>
    simp only [networkStep]
    split
    · cases body <;> rfl
    · split
      · cases c <;> rfl
      · rfl

theorem networkStep_loadingAfter (saveNow : Int) (oldRepos : List String)
    (store : Store) (resp : Resp) :
    (networkStep saveNow oldRepos store resp).loadingAfter = false := by
  obtain ⟨c, ts⟩ := store
  cases resp with
  | netError => rfl
  | http status body =>
    simp only [networkStep]
    split
    · cases body <;> rfl
    · split
      · cases c <;> rfl
      · rfl

theorem fetchRepos_loadingAfter (now saveNow : Int) (oldRepos : List String)
    (store : Store) (resp : Resp) :
    (fetchRepos now saveNow oldRepos store resp).loadingAfter = false := by
  obtain ⟨c, ts⟩ := store
  cases c with
  | none => exact networkStep_loadingAfter saveNow oldRepos ⟨none, ts⟩ resp
  | some cachedList =>
    simp only [fetchRepos]
    split
    · rfl
    · exact networkStep_loadingAfter saveNow oldRepos ⟨some cachedList, ts⟩ resp

theorem pick_mem {α : Type} {l : List α} {r : Nat} {u : α}
    (h : pick l r = some u) : u ∈ l :=
  List.get?_mem h

theorem pick_of_lt {α : Type} (l : List α) (j : Nat) (h : j < l.length) :
    pick l j = some (l.get ⟨j, h⟩) := by
  unfold pick
  rw [Nat.mod_eq_of_lt h]
  exact List.get?_eq_get h

theorem pick_ne_nil {α : Type} (l : List α) (r : Nat) (h : l ≠ []) :
    ∃ u, pick l r = some u ∧ u ∈ l := by
  have hl : 0 < l.length := List.length_pos.mpr h
  have hr : r % l.length < l.length := Nat.mod_lt _ hl
  exact ⟨l.get ⟨r % l.length, hr⟩, List.get?_eq_get hr, List.get_mem l _ hr⟩

theorem networkStep_store_unchanged (saveNow : Int) (oldRepos : List String)
    (store : Store) (resp : Resp)
    (h : ∀ status items, resp = Resp.http status (some items) →
      isOk status = false) :
    (networkStep saveNow oldRepos store resp).store = store := by
  obtain ⟨c, ts⟩ := store
  cases resp with
  | netError => rfl
  | http status body =>
    by_cases hok : isOk status = true
    · cases body with
      | some items => exact absurd (h status items rfl) (by simp [hok])
      | none => simp [networkStep, hok]
    · have hok' : isOk status = false := by simpa using hok
      simp only [networkStep, hok', Bool.false_eq_true, if_false]
      split
      · cases c <;> rfl
      · rfl

theorem fetchRepos_is_networkStep (now saveNow : Int) (oldRepos : List String)
    (store : Store) (resp : Resp)
    (hcache : store.cached = none ∨ isCacheValid now store = false) :
    fetchRepos now saveNow oldRepos store resp =
      networkStep saveNow oldRepos store resp := by
  obtain ⟨c, ts⟩ := store
  cases c with
  | none => rfl
  | some cachedList =>
    rcases hcache with hc | hc
    · exact absurd hc (by simp)
    · simp [fetchRepos, hc]

/-! Claim theorems. -/

/-- C1: for every stored timestamp T (with a cached list present), on
initialization the cached list is adopted and no network call is made iff
`now - T < 1800000` milliseconds; otherwise a network fetch is attempted. -/
theorem C1_cache_validity (now saveNow T : Int) (oldRepos l : List String)
    (resp : Resp) :
    (((fetchRepos now saveNow oldRepos ⟨some l, some (some T)⟩ resp).networkCalled = false ∧
        (fetchRepos now saveNow oldRepos ⟨some l, some (some T)⟩ resp).repos = l) ↔
      now - T < 1800000) ∧
    (¬ now - T < 1800000 →
      (fetchRepos now saveNow oldRepos ⟨some l, some (some T)⟩ resp).networkCalled = true) := by
  rw [← CACHE_DURATION_eq]
  by_cases h : now - T < CACHE_DURATION
  · refine ⟨?_, fun hn => absurd h hn⟩
    simp [fetchRepos, isCacheValid, h]
  · have hv : isCacheValid now ⟨some l, some (some T)⟩ = false := by
      simp [isCacheValid, h]
    have hn := networkStep_networkCalled saveNow oldRepos ⟨some l, some (some T)⟩ resp
    refine ⟨?_, fun _ => ?_⟩
    · simp [fetchRepos, hv, hn, h]
    · simp [fetchRepos, hv, hn]

/-- C1 witness: with a cached list and a timestamp 0 read at time 0, the
cache is within TTL, the cached list is adopted and no network call made. -/
theorem C1_cache_validity_witness :
    (fetchRepos 0 0 [] ⟨some ["u"], some (some 0)⟩ Resp.netError).networkCalled = false ∧
    (fetchRepos 0 0 [] ⟨some ["u"], some (some 0)⟩ Resp.netError).repos = ["u"] :=
  (C1_cache_validity 0 0 0 [] ["u"] Resp.netError).1.mpr (by decide)

/-- C4: the control is enabled (not disabled) iff the loading flag is false
and the candidate list is non-empty. -/
theorem C4_disabled_invariant (isLoading : Bool) (repos : List String) :
    buttonDisabled isLoading repos = false ↔
      (isLoading = false ∧ 0 < repos.length) := by
  cases isLoading <;>
    simp [buttonDisabled, Nat.pos_iff_ne_zero]

/-- C4 witness: with loading off and one candidate, the control is enabled. -/
theorem C4_disabled_invariant_witness : buttonDisabled false ["u"] = false :=
  (C4_disabled_invariant false ["u"]).mpr ⟨rfl, by decide⟩

/-- C10: if the stored timestamp is absent or `parseInt` yields NaN on it,
the validity check is simply false (no error), and initialization proceeds
to a network fetch. -/
theorem C10_bad_timestamp (now saveNow : Int) (oldRepos : List String)
    (store : Store) (resp : Resp)
    (h : store.timestamp = none ∨ store.timestamp = some none) :
    isCacheValid now store = false ∧
    (fetchRepos now saveNow oldRepos store resp).networkCalled = true := by
  have hv : isCacheValid now store = false := by
    rcases h with h | h <;> simp [isCacheValid, h]
  refine ⟨hv, ?_⟩
  obtain ⟨c, ts⟩ := store
  cases c with
  | none => exact networkStep_networkCalled saveNow oldRepos ⟨none, ts⟩ resp
  | some cachedList =>
    simp only [fetchRepos, hv, if_false]
    exact networkStep_networkCalled saveNow oldRepos ⟨some cachedList, ts⟩ resp

/-- C10 witness: cached list present but no stored timestamp; the cache is
not valid and the network is called. -/
theorem C10_bad_timestamp_witness :
    isCacheValid 0 ⟨some ["u"], none⟩ = false ∧
    (fetchRepos 0 0 [] ⟨some ["u"], none⟩ Resp.netError).networkCalled = true :=
  C10_bad_timestamp 0 0 [] ⟨some ["u"], none⟩ Resp.netError (Or.inl rfl)

/-- C2: on a successful response with an `items` array (reached because the
cache was absent or expired), the candidate list becomes exactly the
`html_url`s of the items with `open_issues_count > 0` in their original
order, and exactly this list with the current timestamp is persisted,
overwriting any prior entry. -/
theorem C2_filter_and_persist (now saveNow : Int) (oldRepos : List String)
    (store : Store) (status : Nat) (items : List Item)
    (hcache : store.cached = none ∨ isCacheValid now store = false)
    (hok : isOk status = true) :
    (fetchRepos now saveNow oldRepos store (Resp.http status (some items))).repos =
      (items.filter fun item => decide (0 < item.open_issues_count)).map
        (fun item => item.html_url) ∧
    (fetchRepos now saveNow oldRepos store (Resp.http status (some items))).store =
      ⟨some ((items.filter fun item => decide (0 < item.open_issues_count)).map
        (fun item => item.html_url)), some (some saveNow)⟩ := by
  have hstep : networkStep saveNow oldRepos store (Resp.http status (some items)) =
      ⟨validUrls items, ⟨some (validUrls items), some (some saveNow)⟩,
        true, false, false, false, false⟩ := by
    simp [networkStep, hok]
  rw [fetchRepos_is_networkStep now saveNow oldRepos store
    (Resp.http status (some items)) hcache, hstep]
  exact ⟨rfl, rfl⟩

/-- C2 witness: the spec's own end-to-end example, no cache and items
`[(0, u1), (3, u2)]`: the list becomes `["u2"]` and `["u2"]` with the
persist-time timestamp is written to the store. -/
theorem C2_filter_and_persist_witness :
    (fetchRepos 0 7 [] ⟨none, none⟩
      (Resp.http 200 (some [⟨0, "u1"⟩, ⟨3, "u2"⟩]))).repos = ["u2"] ∧
    (fetchRepos 0 7 [] ⟨none, none⟩
      (Resp.http 200 (some [⟨0, "u1"⟩, ⟨3, "u2"⟩]))).store =
      ⟨some ["u2"], some (some 7)⟩ := by
  have h := C2_filter_and_persist 0 7 [] ⟨none, none⟩ 200
    [⟨0, "u1"⟩, ⟨3, "u2"⟩] (Or.inl rfl) (by decide)
  exact ⟨h.1.trans (by decide), h.2.trans (by decide)⟩

/-- C3: a fetch answered with HTTP 403 or 429 while a cache entry exists
(even one past its TTL, which is why the fetch happened at all) makes the
candidate list exactly the cached list, and no error is thrown to the
caller. -/
theorem C3_rate_limit_fallback (now saveNow : Int) (oldRepos l : List String)
    (ts : Option (Option Int)) (status : Nat) (body : Option (List Item))
    (hstatus : status = 403 ∨ status = 429)
    (hstale : isCacheValid now ⟨some l, ts⟩ = false) :
    (fetchRepos now saveNow oldRepos ⟨some l, ts⟩ (Resp.http status body)).repos = l ∧
    (fetchRepos now saveNow oldRepos ⟨some l, ts⟩
      (Resp.http status body)).thrownToCaller = false := by
  have hnotok : isOk status = false := by
    rcases hstatus with h | h <;> simp [isOk, h]
  have hcond : (status == 403 || status == 429) = true := by
    rcases hstatus with h | h <;> simp [h]
  have hstep : networkStep saveNow oldRepos ⟨some l, ts⟩ (Resp.http status body) =
      ⟨l, ⟨some l, ts⟩, true, false, false, true, false⟩ := by
    simp [networkStep, hnotok, hcond]
  simp only [fetchRepos, hstale, if_false, hstep]
  exact ⟨rfl, rfl⟩

/-- C3 witness: stale cache (age 2000000 ms) and a 403 response: the cached
list is adopted and nothing is thrown. -/
theorem C3_rate_limit_fallback_witness :
    (fetchRepos 2000000 0 [] ⟨some ["u"], some (some 0)⟩
      (Resp.http 403 none)).repos = ["u"] ∧
    (fetchRepos 2000000 0 [] ⟨some ["u"], some (some 0)⟩
      (Resp.http 403 none)).thrownToCaller = false :=
  C3_rate_limit_fallback 2000000 0 [] ["u"] (some (some 0)) 403 none
    (Or.inl rfl) (by decide)

/-- C9: the rate-limit fallback writes neither cache key (the store is left
exactly as it was), and in general the store is modified only on the
successful-parse path. -/
theorem C9_fallback_frame (now saveNow : Int) (oldRepos : List String)
    (store : Store) (resp : Resp) :
    ((∃ l, store.cached = some l) →
      isCacheValid now store = false →
      (∃ status body, resp = Resp.http status body ∧
        (status = 403 ∨ status = 429)) →
      (fetchRepos now saveNow oldRepos store resp).store = store) ∧
    ((fetchRepos now saveNow oldRepos store resp).store ≠ store →
      ∃ status items, resp = Resp.http status (some items) ∧
        isOk status = true) := by
  constructor
  · rintro ⟨l, hl⟩ hstale ⟨status, body, rfl, hstatus⟩
    have hnotok : isOk status = false := by
      rcases hstatus with h | h <;> simp [isOk, h]
    have hfr : ∀ s items, Resp.http status body = Resp.http s (some items) →
        isOk s = false := by
      intro s items he
      injection he with h1 h2
      subst h1
      exact hnotok
    rw [fetchRepos_is_networkStep now saveNow oldRepos store
      (Resp.http status body) (Or.inr hstale)]
    exact networkStep_store_unchanged saveNow oldRepos store
      (Resp.http status body) hfr
  · intro hchanged
    by_contra hnone
    have hfr : ∀ status items, resp = Resp.http status (some items) →
        isOk status = false := by
      intro status items hr
      by_contra hne
      exact hnone ⟨status, items, hr, by simpa using hne⟩
    apply hchanged
    obtain ⟨c, ts⟩ := store
    cases c with
    | none =>
      exact networkStep_store_unchanged saveNow oldRepos ⟨none, ts⟩ resp hfr
    | some cachedList =>
      by_cases hv : isCacheValid now ⟨some cachedList, ts⟩ = true
      · simp [fetchRepos, hv]
      · have hv' : isCacheValid now ⟨some cachedList, ts⟩ = false := by
          simpa using hv
        rw [fetchRepos_is_networkStep now saveNow oldRepos
          ⟨some cachedList, ts⟩ resp (Or.inr hv')]
        exact networkStep_store_unchanged saveNow oldRepos
          ⟨some cachedList, ts⟩ resp hfr

/-- C9 witness: stale cache plus a 429 response leaves the store exactly as
it was. -/
theorem C9_fallback_frame_witness :
    (fetchRepos 2000000 0 [] ⟨some ["u"], some (some 0)⟩
      (Resp.http 429 none)).store = ⟨some ["u"], some (some 0)⟩ :=
  (C9_fallback_frame 2000000 0 [] ⟨some ["u"], some (some 0)⟩
      (Resp.http 429 none)).1
    ⟨["u"], rfl⟩ (by decide) ⟨429, none, rfl, Or.inr rfl⟩

/-- C5 counterexample: called on 2024-12-31, the code's cutoff is
"2024-07-01" (JS `setMonth` keeps day 31, "June 31" normalizes to July 1),
while exactly six months before 2024-12-31 is 2024-06-30; so the cutoff is
not always exactly the call date minus 6 months. -/
theorem C5_recent_date_counterexample :
    getRecentDate 2024 12 31 = "2024-07-01" ∧
    formatYMD (exactSixMonthsBefore 2024 12 31).1
      (exactSixMonthsBefore 2024 12 31).2.1
      (exactSixMonthsBefore 2024 12 31).2.2 = "2024-06-30" ∧
    getRecentDate 2024 12 31 ≠
      formatYMD (exactSixMonthsBefore 2024 12 31).1
        (exactSixMonthsBefore 2024 12 31).2.1
        (exactSixMonthsBefore 2024 12 31).2.2 := by
  refine ⟨by decide, by decide, by decide⟩

/-- C5 amended: maxStars always equals minStars + 10000 for every candidate
minStars; the recency cutoff is the call date with the month shifted back 6
(JS normalization rolling a day-of-month overflow into the next month),
formatted YYYY-MM-DD, and it agrees with exactly-six-months-before whenever
the call day-of-month exists in the target month. -/
theorem C5_query_construction_amended :
    (∀ s ∈ minStarsOptions, maxStarsOf s = s + 10000) ∧
    (∀ y m d : Nat,
      d ≤ daysInMonth (monthShiftBack6 y m).1 (monthShiftBack6 y m).2 →
      getRecentDate y m d =
        formatYMD (exactSixMonthsBefore y m d).1
          (exactSixMonthsBefore y m d).2.1
          (exactSixMonthsBefore y m d).2.2) := by
  refine ⟨fun s _ => rfl, ?_⟩
  intro y m d h
  have hmin :
      min d (daysInMonth (monthShiftBack6 y m).1 (monthShiftBack6 y m).2) = d :=
    Nat.min_eq_left h
  simp [getRecentDate, setMonthMinus6, exactSixMonthsBefore, h, hmin]

/-- C5 amended witness: minStars 500 gives maxStars 10500, and on
2024-12-30 (no day overflow) the cutoff equals exactly six months before. -/
theorem C5_query_construction_amended_witness :
    maxStarsOf 500 = 10500 ∧
    getRecentDate 2024 12 30 =
      formatYMD (exactSixMonthsBefore 2024 12 30).1
        (exactSixMonthsBefore 2024 12 30).2.1
        (exactSixMonthsBefore 2024 12 30).2.2 :=
  ⟨C5_query_construction_amended.1 500 (by decide),
    C5_query_construction_amended.2 2024 12 30 (by decide)⟩

/-- C6: the loading flag is cleared on every path; and every fetch failure
not handled by the rate-limit fallback (network error, non-ok status
without fallback, or ok status with an unusable body) leaves list and store
unchanged, logs the error, and lets no exception escape. -/
theorem C6_error_paths (now saveNow : Int) (oldRepos : List String)
    (store : Store) (resp : Resp) :
    (fetchRepos now saveNow oldRepos store resp).loadingAfter = false ∧
    ((store.cached = none ∨ isCacheValid now store = false) →
      (resp = Resp.netError ∨
        (∃ status body, resp = Resp.http status body ∧ isOk status = false ∧
          ¬((status = 403 ∨ status = 429) ∧ store.cached.isSome = true)) ∨
        (∃ status, resp = Resp.http status none ∧ isOk status = true)) →
      (fetchRepos now saveNow oldRepos store resp).repos = oldRepos ∧
      (fetchRepos now saveNow oldRepos store resp).store = store ∧
      (fetchRepos now saveNow oldRepos store resp).errorLogged = true ∧
      (fetchRepos now saveNow oldRepos store resp).thrownToCaller = false) := by
  refine ⟨fetchRepos_loadingAfter now saveNow oldRepos store resp, ?_⟩
  intro hcache herr
  rw [fetchRepos_is_networkStep now saveNow oldRepos store resp hcache]
  rcases herr with rfl | ⟨status, body, rfl, hnotok, hnofb⟩ | ⟨status, rfl, hok⟩
  · exact ⟨rfl, rfl, rfl, rfl⟩
  · have hcond :
        ((status == 403 || status == 429) && store.cached.isSome) = false := by
      by_cases h1 : status = 403 ∨ status = 429
      · have h2 : store.cached.isSome = false := by
          cases hsome : store.cached.isSome with
          | false => rfl
          | true => exact absurd ⟨h1, hsome⟩ hnofb
        simp [h2]
      · rcases not_or.mp h1 with ⟨h3, h4⟩
        simp [h3, h4]
    simp [networkStep, hnotok, hcond]
  · simp [networkStep, hok]

/-- C6 witness: first run (empty store), network failure: list stays empty,
store untouched, error logged, nothing thrown, loading cleared. -/
theorem C6_error_paths_witness :
    (fetchRepos 0 0 [] ⟨none, none⟩ Resp.netError).loadingAfter = false ∧
    (fetchRepos 0 0 [] ⟨none, none⟩ Resp.netError).repos = [] ∧
    (fetchRepos 0 0 [] ⟨none, none⟩ Resp.netError).store = ⟨none, none⟩ ∧
    (fetchRepos 0 0 [] ⟨none, none⟩ Resp.netError).errorLogged = true ∧
    (fetchRepos 0 0 [] ⟨none, none⟩ Resp.netError).thrownToCaller = false := by
  have h := C6_error_paths 0 0 [] ⟨none, none⟩ Resp.netError
  exact ⟨h.1, h.2 (Or.inl rfl) (Or.inl rfl)⟩

/-- C7: in every reachable button state, activating the control with an
empty candidate list requests no navigation (the element is disabled, so
the click handler does not run), and activating it with a non-empty list
requests that some element of the list be opened. -/
theorem C7_activation (s : ButtonState) (hs : Reachable s) (r : Nat) :
    (s.repos = [] → controlActivate s.isLoading s.repos r = none) ∧
    (s.repos ≠ [] → ∃ url, controlActivate s.isLoading s.repos r = some url ∧
      url ∈ s.repos) := by
  have hempty : ∀ (b : Bool), controlActivate b [] r = none := by
    intro b
    cases b <;> rfl
  cases hs with
  | mount => exact ⟨fun _ => hempty false, fun hne => absurd rfl hne⟩
  | fetching => exact ⟨fun _ => hempty true, fun hne => absurd rfl hne⟩
  | settled now saveNow store resp =>
    dsimp only
    constructor
    · intro he
      rw [he]
      exact hempty false
    · intro hne
      obtain ⟨u, hu, hmem⟩ :=
        pick_ne_nil ((fetchRepos now saveNow [] store resp).repos) r hne
      refine ⟨u, ?_, hmem⟩
      have hd :
          buttonDisabled false ((fetchRepos now saveNow [] store resp).repos)
            = false := by
        simp [buttonDisabled, List.length_eq_zero, hne]
      simp [controlActivate, hd, handleClick, hu]

/-- C7 witness: in the freshly mounted state the list is empty and a click
requests no navigation. -/
theorem C7_activation_witness : controlActivate false [] 0 = none :=
  (C7_activation ⟨false, []⟩ Reachable.mount 0).1 rfl

/-- C8: every URL the click handler selects is an element of the candidate
list, and for every position of the list some draw of the random source
selects exactly that entry, so no entry is systematically excluded. -/
theorem C8_selection_domain (repos : List String) :
    (∀ r u, handleClick repos r = some u → u ∈ repos) ∧
    (∀ j (hj : j < repos.length),
      ∃ r, handleClick repos r = some (repos.get ⟨j, hj⟩)) := by
  constructor
  · intro r u hu
    exact pick_mem hu
  · intro j hj
    exact ⟨j, pick_of_lt repos j hj⟩

/-- C8 witness: on the list ["a", "b"], draw 0 selects "a" (a member), and
some draw selects the entry at position 1. -/
theorem C8_selection_domain_witness :
    "a" ∈ ["a", "b"] ∧ ∃ r, handleClick ["a", "b"] r = some "b" := by
  have h := C8_selection_domain ["a", "b"]
  refine ⟨h.1 0 "a" rfl, ?_⟩
  obtain ⟨r, hr⟩ := h.2 1 (by decide)
  exact ⟨r, hr⟩

end Gitscovery
